import Mathlib

/-!
# Verification of `hugo_blog_manager.py`

A shallow embedding of the content-management utility in
`src/hugo_blog_manager.py`: pure string helpers, the on-disk content store
(authors and articles), and the four repository-client operations
(`fork_repo`, `create_branch`, `commit_changes`, `push_changes`).

Strings are Lean `String`s; the filesystem is an explicit state value;
the external GitHub/git libraries are modelled as an environment of
fallible calls (`Except String`), as seen by one invocation.
-/

namespace HugoBlog

/-! ## Python string primitives -/

/-- The characters stripped by Python's `str.strip()` (ASCII whitespace). -/
def isPySpace (c : Char) : Bool :=
  c == ' ' || c == '\t' || c == '\n' || c == '\r' || c == '\x0b' || c == '\x0c'

/-- Python `str.strip()` on a character list: drop leading and trailing
whitespace runs. -/
def pyStripList (l : List Char) : List Char :=
  ((l.dropWhile isPySpace).reverse.dropWhile isPySpace).reverse

/-- Python `str.strip()`. -/
def pyStrip (s : String) : String :=
  String.mk (pyStripList s.data)

/-- The character map underlying `str.replace(" ", "-")`. -/
def replSpace (c : Char) : Char :=
  if c == ' ' then '-' else c

/-- Python `str.replace(" ", "-")`: the pattern is a single character, so
this is a character-wise map. -/
def pyReplaceSpaceHyphen (s : String) : String :=
  String.mk (s.data.map replSpace)

/-- Python `str.lower()` (ASCII letters, as Lean's `Char.toLower`). -/
def pyLower (s : String) : String :=
  String.mk (s.data.map Char.toLower)

/-- `format_author_name` (src/hugo_blog_manager.py, lines 27-28):
`return name.strip().replace(" ", "-").lower()`. -/
def format_author_name (name : String) : String :=
  pyLower (pyReplaceSpaceHyphen (pyStrip name))

/-- Modelled from the spec: the external `slugify` library function (package
`python-slugify`, not part of this repository). Spec section 4.1: lowercase,
non-alphanumeric runs collapsed to single hyphens, no leading/trailing
hyphens. -/
def slugify (title : String) : String :=
  String.intercalate "-"
    ((((title.data.map Char.toLower).splitOnP (fun c => !(c.isAlpha || c.isDigit))).filter
        (fun w => !w.isEmpty)).map (fun w => String.mk w))

example : format_author_name "Jane Doe" = "jane-doe" := by decide
example : format_author_name "   " = "" := by decide
example : slugify "Hello, World!" = "hello-world" := by decide
example : slugify "!!!" = "" := by decide

/-! ## Filesystem model

Paths are segment lists (relative to the filesystem root). The state is
the set of directories plus a write-shadowing association list of files. -/

abbrev FsPath := List String

structure FS where
  dirs : List FsPath
  files : List (FsPath × String)

/-- The module-level path constants (src/hugo_blog_manager.py, lines 11-17). -/
def HUGO_PROJECT_PATH : FsPath := ["project"]

def CONTENT_AUTHORS_PATH : FsPath := HUGO_PROJECT_PATH ++ ["content", "authors"]

def DATA_AUTHORS_PATH : FsPath := HUGO_PROJECT_PATH ++ ["data", "authors"]

def CONTENT_BLOG_PATH : FsPath := HUGO_PROJECT_PATH ++ ["content", "blog"]

def CODE_SERVER_BASE : String := "http://localhost:8087/"

def REPO_FULL_NAME : String := "your-org/your-repo"

/-- `pathlib`'s `/` operator: joining an empty component leaves the path
unchanged (`Path("a") / "" == Path("a")`). -/
def pathJoin (p : FsPath) (seg : String) : FsPath :=
  if seg = "" then p else p ++ [seg]

/-- Add a directory if not already present. -/
def insertPath (q : FsPath) (ds : List FsPath) : List FsPath :=
  if q ∈ ds then ds else q :: ds

/-- `Path.mkdir(parents=True, exist_ok=True)`: record the directory and every
ancestor, idempotently. -/
def FS.mkdirP (fs : FS) (p : FsPath) : FS :=
  let ds := (p.inits.filter (fun q => !q.isEmpty)).foldl (fun ds q => insertPath q ds) fs.dirs
  { fs with dirs := ds }

/-- `Path.write_text`: create or overwrite (newest write shadows older ones). -/
def FS.writeFile (fs : FS) (p : FsPath) (content : String) : FS :=
  { fs with files := (p, content) :: fs.files }

def readFiles : List (FsPath × String) → FsPath → Option String
  | [], _ => none
  | (q, c) :: rest, p => if q = p then some c else readFiles rest p

/-- Read a file's current content. -/
def FS.read (fs : FS) (p : FsPath) : Option String :=
  readFiles fs.files p

/-- The name of `p` when `p` is an immediate child of `root`, else `none`
(used to model `Path.iterdir`). -/
def childName? (root p : FsPath) : Option String :=
  if p.take root.length = root then
    match p.drop root.length with
    | [n] => some n
    | _ => none
  else none

/-! ## Content store operations -/

/-- `list_authors` (lines 24-25):
`sorted([p.name for p in CONTENT_AUTHORS_PATH.iterdir() if p.is_dir()])`.
Only directory entries contribute (`if p.is_dir()`), so the candidates come
from `fs.dirs`; `sorted` is ascending lexicographic order on strings. -/
def list_authors (fs : FS) : List String :=
  (fs.dirs.filterMap (childName? CONTENT_AUTHORS_PATH)).mergeSort
    (fun a b => decide (a ≤ b))

/-- The invalid-input status of `create_author` (line 33). -/
def INVALID_AUTHOR_MSG : String := "❌ Please enter a valid author name."

/-- `gr.update(choices=authors, value=name_formatted)` as plain data. -/
structure AuthorUpdate where
  choices : List String
  value : String
deriving DecidableEq

/-- One character of a JSON string literal, as `json.dumps` renders it. -/
def jsonEscapeChar (c : Char) : List Char :=
  if c == '"' || c == '\\' then ['\\', c] else [c]

/-- A JSON string literal, as `json.dumps` renders it. -/
def jsonStr (s : String) : String :=
  "\"" ++ String.mk (s.data.flatMap jsonEscapeChar) ++ "\""

/-- `json.dumps({"name": nf, "bio": "", "image": ""}, indent=2)` (lines 40-42). -/
def authorJson (nf : String) : String :=
  "\x7b\n  \"name\": " ++ jsonStr nf ++ ",\n  \"bio\": \"\",\n  \"image\": \"\"\n\x7d"

/-- The `_index.md` front matter written for an author (line 39). -/
def authorIndexContent (nf : String) : String :=
  "---\ntitle: " ++ nf ++ "\n---\n"

/-- `create_author` (lines 31-47). Returns the new filesystem, the status
string, and the dropdown update (`none` models the bare `gr.update()` of the
invalid-input branch). -/
def create_author (fs : FS) (name : String) : FS × String × Option AuthorUpdate :=
  if name = "" || pyStrip name = "" then
    (fs, INVALID_AUTHOR_MSG, none)
  else
    let name_formatted := format_author_name name
    let author_dir := pathJoin CONTENT_AUTHORS_PATH name_formatted
    let fs1 := fs.mkdirP author_dir
    let fs2 := fs1.writeFile (pathJoin author_dir "_index.md")
      (authorIndexContent name_formatted)
    let fs3 := fs2.writeFile (pathJoin DATA_AUTHORS_PATH (name_formatted ++ ".json"))
      (authorJson name_formatted)
    let authors := list_authors fs3
    (fs3, "✅ Author '" ++ name_formatted ++ "' created! (" ++ toString authors.length
        ++ " total)",
      some ⟨authors, name_formatted⟩)

/-! ## Article creation -/

/-- The values `datetime.now()` is formatted to in `create_article`
(lines 63-70): `now.strftime("%Y")`, `now.strftime("%m")`,
`now.strftime("%Y-%m-%d")`. -/
structure Now where
  y : String
  m : String
  dateOnly : String

/-- The invalid-input status of `create_article` (line 61). -/
def INVALID_ARTICLE_MSG : String := "❌ Please provide both title and author."

/-- The `index.md` front matter written for an article (lines 72-77). -/
def articleContent (title author date : String) : String :=
  "---\ntitle: \"" ++ title ++ "\"\nauthor: " ++ author ++ "\ndate: " ++ date ++ "\n---\n"

/-- The editor deep-link (line 78). -/
def vscode_link (y m slug : String) : String :=
  CODE_SERVER_BASE ++ "?folder=/project/content/blog/" ++ y ++ "/" ++ m ++ "/" ++ slug

/-- The live-preview link (line 79). -/
def preview_link (y m slug : String) : String :=
  "http://localhost:1313/blog/" ++ y ++ "/" ++ m ++ "/" ++ slug ++ "/"

/-- The styled HTML fragment wrapping the editor deep-link (lines 88-109). -/
def vscodeMsg (link : String) : String :=
  "\n    <div style=\"\n        background: linear-gradient(135deg, #f56565 0%, #c53030 100%);\n        padding: 12px 20px;\n        border-radius: 8px;\n        margin: 10px 0;\n        box-shadow: 0 4px 6px rgba(0, 0, 0, 0.1);\n        border: 2px solid #742a2a;\n    \">\n        <a href=\"" ++ link ++ "\" target=\"_blank\" style=\"\n            color: white;\n            text-decoration: none;\n            font-weight: bold;\n            font-size: 16px;\n            display: flex;\n            align-items: center;\n            gap: 8px;\n        \">\n            🔗 Open in VS Code\n        </a>\n    </div>\n    "

/-- The styled HTML fragment wrapping the preview link (lines 112-133). -/
def previewMsg (link : String) : String :=
  "\n    <div style=\"\n        background: linear-gradient(135deg, #ed8936 0%, #dd6b20 100%);\n        padding: 12px 20px;\n        border-radius: 8px;\n        margin: 10px 0;\n        box-shadow: 0 4px 6px rgba(0, 0, 0, 0.1);\n        border: 2px solid #c05621;\n    \">\n        <a href=\"" ++ link ++ "\" target=\"_blank\" style=\"\n            color: white;\n            text-decoration: none;\n            font-weight: bold;\n            font-size: 16px;\n            display: flex;\n            align-items: center;\n            gap: 8px;\n        \">\n            👁️ Preview Article\n        </a>\n    </div>\n    "

/-- `create_article` (lines 59-135). Returns the new filesystem, the status
string, the branch-textbox update, and the two HTML link fragments (`none`
models `gr.update()` / `gr.update(visible=False)` of the invalid branch). -/
def create_article (fs : FS) (now : Now) (title author_name : String) :
    FS × String × Option String × Option String × Option String :=
  if title = "" || author_name = "" then
    (fs, INVALID_ARTICLE_MSG, none, none, none)
  else
    let article_slug := slugify title
    let article_dir := pathJoin (pathJoin (pathJoin CONTENT_BLOG_PATH now.y) now.m) article_slug
    let fs1 := fs.mkdirP article_dir
    let fs2 := fs1.writeFile (pathJoin article_dir "index.md")
      (articleContent title author_name now.dateOnly)
    let branch_name := "add/" ++ article_slug
    let status_msg := "✅ Article '" ++ title ++ "' created by " ++ author_name ++ "."
    (fs2, status_msg, some branch_name,
      some (vscodeMsg (vscode_link now.y now.m article_slug)),
      some (previewMsg (preview_link now.y now.m article_slug)))

/-! ## Repository client model -/

/-- A GitHub repository as seen through the hosting API. -/
structure GRepo where
  name : String
  full_name : String
  ssh_url : String
deriving DecidableEq

/-- Modelled from the spec: the external GitHub API (PyGithub) and local git
(GitPython) libraries are not part of this repository; this environment is
one invocation's view of them. Each field is the outcome of the
corresponding external call, `Except.error e` modelling the call raising an
exception whose `str(...)` is `e`. -/
structure GitEnv where
  get_user : Except String Unit
  get_repo : String → Except String GRepo
  user_repos : Except String (List GRepo)
  create_fork : GRepo → Except String GRepo
  clone_exists : Bool
  open_repo : Except String Unit
  clone_from : String → Except String Unit
  checkout_new_branch : String → Except String Unit
  add_all : Except String Unit
  index_commit : String → Except String Unit
  get_origin : Except String Unit
  push_refspec : String → Except String Unit

/-- Python `str.endswith`. -/
def pyEndsWith (s post : String) : Bool :=
  post.data.isSuffixOf s.data

/-- The `try` body of `fork_repo` (lines 139-146). -/
def fork_repo_body (env : GitEnv) : Except String String := do
  let _ ← env.get_user
  let repo ← env.get_repo REPO_FULL_NAME
  let repos ← env.user_repos
  let fork ← match repos.find? (fun f => pyEndsWith f.full_name repo.name) with
    | some f => pure f
    | none => env.create_fork repo
  pure ("✅ Forked repo: " ++ fork.full_name)

/-- The `try ... except Exception as e: return marker + str(e)` boundary
shared by the four git operations: a success value passes through, a raised
failure is converted to the marker-prefixed status string. -/
def exceptCatch (body : Except String String) (marker : String) : String :=
  match body with
  | .ok s => s
  | .error e => marker ++ e

/-- `fork_repo` (lines 138-148): the `try`/`except` boundary. -/
def fork_repo (env : GitEnv) : String :=
  exceptCatch (fork_repo_body env) "❌ Fork failed: "

/-- `clone_or_open_repo` (lines 150-160); not itself guarded by
`try`/`except` — its callers are. -/
def clone_or_open_repo (env : GitEnv) : Except String Unit := do
  if env.clone_exists then
    env.open_repo
  else do
    let _ ← env.get_user
    let repo_g ← env.get_repo REPO_FULL_NAME
    let repos ← env.user_repos
    let fork ← match repos.find? (fun f => pyEndsWith f.full_name repo_g.name) with
      | some f => pure f
      | none => env.create_fork repo_g
    let _ ← env.clone_from fork.ssh_url
    env.open_repo

/-- The `try` body of `create_branch` (lines 163-166). -/
def create_branch_body (env : GitEnv) (branch_name : String) : Except String String := do
  let _ ← clone_or_open_repo env
  let _ ← env.checkout_new_branch branch_name
  pure ("✅ Branch '" ++ branch_name ++ "' created.")

/-- `create_branch` (lines 162-168): the `try`/`except` boundary. -/
def create_branch (env : GitEnv) (branch_name : String) : String :=
  exceptCatch (create_branch_body env branch_name) "❌ Branch failed: "

/-- The `try` body of `commit_changes` (lines 171-175). -/
def commit_changes_body (env : GitEnv) (message : String) : Except String String := do
  let _ ← clone_or_open_repo env
  let _ ← env.add_all
  let _ ← env.index_commit message
  pure ("✅ Committed: '" ++ message ++ "'")

/-- `commit_changes` (lines 170-177): the `try`/`except` boundary. -/
def commit_changes (env : GitEnv) (message : String) : String :=
  exceptCatch (commit_changes_body env message) "❌ Commit failed: "

/-- The `try` body of `push_changes` (lines 180-184). -/
def push_changes_body (env : GitEnv) (branch_name : String) : Except String String := do
  let _ ← clone_or_open_repo env
  let _ ← env.get_origin
  let _ ← env.push_refspec (branch_name ++ ":" ++ branch_name)
  pure ("✅ Pushed '" ++ branch_name ++ "'")

/-- `push_changes` (lines 179-186): the `try`/`except` boundary. -/
def push_changes (env : GitEnv) (branch_name : String) : String :=
  exceptCatch (push_changes_body env branch_name) "❌ Push failed: "

/-! ## Concrete sample values -/

/-- The empty filesystem. -/
def fs0 : FS := ⟨[], []⟩

/-- A sample wall-clock instant (October 2025). -/
def now0 : Now := ⟨"2025", "10", "2025-10-12"⟩

/-- An environment in which the very first external call of every operation
raises (e.g. the network is down). -/
def envAllFail : GitEnv where
  get_user := .error "boom"
  get_repo := fun _ => .error "boom"
  user_repos := .error "boom"
  create_fork := fun _ => .error "boom"
  clone_exists := false
  open_repo := .error "boom"
  clone_from := fun _ => .error "boom"
  checkout_new_branch := fun _ => .error "boom"
  add_all := .error "boom"
  index_commit := fun _ => .error "nope"
  get_origin := .error "nope"
  push_refspec := fun _ => .error "nope"

/-- An environment with a valid local clone and a clean working tree, in
which staging succeeds but the underlying commit call raises because
nothing is staged. -/
def envEmptyCommit : GitEnv where
  get_user := .ok ()
  get_repo := fun _ => .ok ⟨"your-repo", "me/your-repo", "git@github.com:me/your-repo.git"⟩
  user_repos := .ok []
  create_fork := fun r => .ok r
  clone_exists := true
  open_repo := .ok ()
  clone_from := fun _ => .ok ()
  checkout_new_branch := fun _ => .ok ()
  add_all := .ok ()
  index_commit := fun _ => .error "nothing to commit"
  get_origin := .ok ()
  push_refspec := fun _ => .ok ()

/-! ## Helper lemmas: characters -/

theorem char_toNat_ofNat_valid (n : Nat) (h : n < 0xd800) : (Char.ofNat n).toNat = n := by
  rw [Char.ofNat, dif_pos (Or.inl h)]
  rfl

theorem char_isUpper_iff (c : Char) : c.isUpper = true ↔ 65 ≤ c.toNat ∧ c.toNat ≤ 90 := by
  unfold Char.isUpper
  simp only [ge_iff_le, Bool.and_eq_true, decide_eq_true_eq, UInt32.le_def, BitVec.le_def]
  exact ⟨fun ⟨h1, h2⟩ => ⟨h1, h2⟩, fun ⟨h1, h2⟩ => ⟨h1, h2⟩⟩

theorem toLower_eq_of_upper {c : Char} (h : 65 ≤ c.toNat ∧ c.toNat ≤ 90) :
    Char.toLower c = Char.ofNat (c.toNat + 32) := by
  unfold Char.toLower
  rw [if_pos ⟨h.1, h.2⟩]

theorem toLower_eq_of_not_upper {c : Char} (h : ¬(65 ≤ c.toNat ∧ c.toNat ≤ 90)) :
    Char.toLower c = c := by
  unfold Char.toLower
  rw [if_neg (fun hc => h ⟨hc.1, hc.2⟩)]

theorem toLower_not_space {c : Char} (h : c ≠ ' ') : Char.toLower c ≠ ' ' := by
  by_cases hu : 65 ≤ c.toNat ∧ c.toNat ≤ 90
  · rw [toLower_eq_of_upper hu]
    intro heq
    have hv := char_toNat_ofNat_valid (c.toNat + 32) (by omega)
    rw [heq] at hv
    have h32 : (' ' : Char).toNat = 32 := rfl
    omega
  · rw [toLower_eq_of_not_upper hu]
    exact h

theorem toLower_isUpper_false (c : Char) : (Char.toLower c).isUpper = false := by
  by_cases hu : 65 ≤ c.toNat ∧ c.toNat ≤ 90
  · rw [toLower_eq_of_upper hu]
    have hv := char_toNat_ofNat_valid (c.toNat + 32) (by omega)
    cases hb : (Char.ofNat (c.toNat + 32)).isUpper with
    | false => rfl
    | true =>
      have := (char_isUpper_iff _).1 hb
      omega
  · rw [toLower_eq_of_not_upper hu]
    cases hb : c.isUpper with
    | false => rfl
    | true => exact absurd ((char_isUpper_iff _).1 hb) hu

theorem toLower_toLower (c : Char) : Char.toLower (Char.toLower c) = Char.toLower c := by
  by_cases hu : 65 ≤ c.toNat ∧ c.toNat ≤ 90
  · rw [toLower_eq_of_upper hu]
    have hv := char_toNat_ofNat_valid (c.toNat + 32) (by omega)
    rw [toLower_eq_of_not_upper (by omega)]
  · rw [toLower_eq_of_not_upper hu, toLower_eq_of_not_upper hu]

theorem toNat_le_of_isPySpace {c : Char} (h : isPySpace c = true) : c.toNat ≤ 32 := by
  unfold isPySpace at h
  simp only [Bool.or_eq_true, beq_iff_eq] at h
  rcases h with ((((rfl | rfl) | rfl) | rfl) | rfl) | rfl <;> decide

theorem isPySpace_toLower (c : Char) : isPySpace (Char.toLower c) = isPySpace c := by
  by_cases hu : 65 ≤ c.toNat ∧ c.toNat ≤ 90
  · rw [toLower_eq_of_upper hu]
    have hv := char_toNat_ofNat_valid (c.toNat + 32) (by omega)
    have h1 : isPySpace (Char.ofNat (c.toNat + 32)) = false := by
      cases hb : isPySpace (Char.ofNat (c.toNat + 32)) with
      | false => rfl
      | true => have := toNat_le_of_isPySpace hb; omega
    have h2 : isPySpace c = false := by
      cases hb : isPySpace c with
      | false => rfl
      | true => have := toNat_le_of_isPySpace hb; omega
    rw [h1, h2]
  · rw [toLower_eq_of_not_upper hu]

theorem not_space_of_not_pySpace {c : Char} (h : isPySpace c = false) : c ≠ ' ' := by
  intro heq
  subst heq
  exact absurd h (by decide)

/-! ## Helper lemmas: stripping -/

theorem dropWhile_eq_self_of_head {p : Char → Bool} {l : List Char}
    (h : ∀ c, l.head? = some c → p c = false) : l.dropWhile p = l := by
  cases l with
  | nil => rfl
  | cons a t =>
    have ha := h a rfl
    simp [List.dropWhile_cons, ha]

theorem head?_dropWhile_false {p : Char → Bool} {l : List Char} {c : Char}
    (h : (l.dropWhile p).head? = some c) : p c = false := by
  have hm := List.head?_dropWhile_not p l
  rw [h] at hm
  exact hm

theorem getLast?_dropWhile {p : Char → Bool} {l : List Char}
    (h : l.dropWhile p ≠ []) : (l.dropWhile p).getLast? = l.getLast? := by
  induction l with
  | nil => exact absurd rfl h
  | cons a t ih =>
    cases hp : p a with
    | false => simp [List.dropWhile_cons, hp]
    | true =>
      have hdrop : (a :: t).dropWhile p = t.dropWhile p := by
        simp [List.dropWhile_cons, hp]
      rw [hdrop] at h ⊢
      have ht : t ≠ [] := by
        intro h0
        subst h0
        exact h rfl
      rw [ih h]
      cases t with
      | nil => exact absurd rfl ht
      | cons b t' => simp

theorem pyStripList_head {l : List Char} {c : Char}
    (h : (pyStripList l).head? = some c) : isPySpace c = false := by
  unfold pyStripList at h
  rw [List.head?_reverse] at h
  by_cases hnil : ((l.dropWhile isPySpace).reverse.dropWhile isPySpace) = []
  · rw [hnil] at h
    simp at h
  · rw [getLast?_dropWhile hnil, List.getLast?_reverse] at h
    exact head?_dropWhile_false h

theorem pyStripList_getLast {l : List Char} {c : Char}
    (h : (pyStripList l).getLast? = some c) : isPySpace c = false := by
  unfold pyStripList at h
  rw [List.getLast?_reverse] at h
  exact head?_dropWhile_false h

theorem pyStripList_eq_self {l : List Char}
    (h1 : ∀ c, l.head? = some c → isPySpace c = false)
    (h2 : ∀ c, l.getLast? = some c → isPySpace c = false) : pyStripList l = l := by
  unfold pyStripList
  rw [dropWhile_eq_self_of_head h1]
  rw [dropWhile_eq_self_of_head (fun c hc => h2 c (by rwa [List.head?_reverse] at hc))]
  exact List.reverse_reverse l

theorem map_eq_self_of {f : Char → Char} {l : List Char}
    (h : ∀ c ∈ l, f c = c) : l.map f = l := by
  induction l with
  | nil => rfl
  | cons a t ih =>
    rw [List.map_cons, h a (by simp), ih (fun c hc => h c (by simp [hc]))]

/-! ## Helper lemmas: `format_author_name` -/

theorem replSpace_ne_space (x : Char) : replSpace x ≠ ' ' := by
  unfold replSpace
  split
  · decide
  · rename_i h
    exact fun heq => h (by simp [heq])

theorem replSpace_eq_self {x : Char} (h : x ≠ ' ') : replSpace x = x := by
  unfold replSpace
  rw [if_neg (by simpa using h)]

theorem format_author_name_data (s : String) :
    (format_author_name s).data
      = ((pyStripList s.data).map replSpace).map Char.toLower := rfl

theorem format_author_name_chars (s : String) :
    ∀ c ∈ (format_author_name s).data, c.isUpper = false ∧ c ≠ ' ' := by
  intro c hc
  rw [format_author_name_data] at hc
  obtain ⟨y, hy, rfl⟩ := List.mem_map.1 hc
  obtain ⟨x, _, rfl⟩ := List.mem_map.1 hy
  exact ⟨toLower_isUpper_false _, toLower_not_space (replSpace_ne_space x)⟩

theorem format_author_name_head {s : String} {c : Char}
    (h : (format_author_name s).data.head? = some c) : isPySpace c = false := by
  rw [format_author_name_data, List.head?_map, List.head?_map] at h
  cases hx : (pyStripList s.data).head? with
  | none => rw [hx] at h; simp at h
  | some x =>
    rw [hx] at h
    simp only [Option.map_some'] at h
    have hxs := pyStripList_head hx
    cases h
    rw [isPySpace_toLower, replSpace_eq_self (not_space_of_not_pySpace hxs)]
    exact hxs

theorem format_author_name_getLast {s : String} {c : Char}
    (h : (format_author_name s).data.getLast? = some c) : isPySpace c = false := by
  rw [format_author_name_data, List.getLast?_map, List.getLast?_map] at h
  cases hx : (pyStripList s.data).getLast? with
  | none => rw [hx] at h; simp at h
  | some x =>
    rw [hx] at h
    simp only [Option.map_some'] at h
    have hxs := pyStripList_getLast hx
    cases h
    rw [isPySpace_toLower, replSpace_eq_self (not_space_of_not_pySpace hxs)]
    exact hxs

theorem format_author_name_idem (s : String) :
    format_author_name (format_author_name s) = format_author_name s := by
  have hstrip : pyStripList (format_author_name s).data = (format_author_name s).data :=
    pyStripList_eq_self (fun c hc => format_author_name_head hc)
      (fun c hc => format_author_name_getLast hc)
  have hrep : (format_author_name s).data.map replSpace = (format_author_name s).data :=
    map_eq_self_of (fun c hc => replSpace_eq_self (format_author_name_chars s c hc).2)
  have hlow : (format_author_name s).data.map Char.toLower = (format_author_name s).data := by
    apply map_eq_self_of
    intro c hc
    rw [format_author_name_data] at hc
    obtain ⟨y, hy, rfl⟩ := List.mem_map.1 hc
    exact toLower_toLower y
  calc format_author_name (format_author_name s)
      = String.mk (((pyStripList (format_author_name s).data).map replSpace).map Char.toLower) :=
        rfl
    _ = String.mk (format_author_name s).data := by rw [hstrip, hrep, hlow]
    _ = format_author_name s := rfl

theorem format_author_name_ne_empty {n : String} (h : pyStrip n ≠ "") :
    format_author_name n ≠ "" := by
  intro heq
  apply h
  have hd := congrArg String.data heq
  rw [format_author_name_data] at hd
  simp only [List.map_eq_nil_iff] at hd
  show String.mk (pyStripList n.data) = ""
  rw [hd]

/-! ## Helper lemmas: filesystem -/

theorem mem_insertPath {p q : FsPath} {ds : List FsPath} :
    p ∈ insertPath q ds ↔ p = q ∨ p ∈ ds := by
  unfold insertPath
  split
  · rename_i hq
    constructor
    · exact fun h => Or.inr h
    · rintro (rfl | h)
      · exact hq
      · exact h
  · simp [List.mem_cons]

theorem mem_foldl_insertPath {l ds : List FsPath} {p : FsPath} :
    p ∈ l.foldl (fun ds q => insertPath q ds) ds ↔ p ∈ ds ∨ p ∈ l := by
  induction l generalizing ds with
  | nil => simp
  | cons a t ih =>
    rw [List.foldl_cons, ih, mem_insertPath, List.mem_cons]
    tauto

theorem mkdirP_dirs_mem {fs : FS} {p q : FsPath} :
    q ∈ (fs.mkdirP p).dirs ↔ q ∈ fs.dirs ∨ (q <+: p ∧ q ≠ []) := by
  unfold FS.mkdirP
  rw [mem_foldl_insertPath]
  simp [List.mem_filter, List.mem_inits]

theorem mkdirP_files (fs : FS) (p : FsPath) : (fs.mkdirP p).files = fs.files := rfl

theorem writeFile_dirs (fs : FS) (p : FsPath) (c : String) :
    (fs.writeFile p c).dirs = fs.dirs := rfl

theorem read_writeFile_self (fs : FS) (p : FsPath) (c : String) :
    (fs.writeFile p c).read p = some c := by
  unfold FS.writeFile FS.read
  simp [readFiles]

theorem read_writeFile_ne {p q : FsPath} (h : q ≠ p) (fs : FS) (c : String) :
    (fs.writeFile p c).read q = fs.read q := by
  unfold FS.writeFile FS.read
  simp only [readFiles]
  rw [if_neg (fun e => h e.symm)]

theorem pathJoin_ne_nil {p : FsPath} (s : String) (h : p ≠ []) : pathJoin p s ≠ [] := by
  unfold pathJoin
  split
  · exact h
  · simp

theorem pathJoin_eq_append {p : FsPath} {s : String} (h : s ≠ "") : pathJoin p s = p ++ [s] := by
  unfold pathJoin
  rw [if_neg h]

theorem mkdirP_self_mem (fs : FS) {p : FsPath} (hp : p ≠ []) : p ∈ (fs.mkdirP p).dirs :=
  mkdirP_dirs_mem.2 (Or.inr ⟨⟨[], by simp⟩, hp⟩)

theorem childName?_append (root : FsPath) (n : String) :
    childName? root (root ++ [n]) = some n := by
  unfold childName?
  rw [if_pos (by simp), List.drop_left]

theorem childName?_eq_some {root p : FsPath} {n : String}
    (h : childName? root p = some n) : p = root ++ [n] := by
  by_cases ht : p.take root.length = root
  · rw [childName?, if_pos ht] at h
    cases hd : p.drop root.length with
    | nil => rw [hd] at h; exact absurd h (by simp)
    | cons m t =>
      cases t with
      | nil =>
        rw [hd] at h
        simp only [Option.some.injEq] at h
        subst h
        rw [← List.take_append_drop root.length p, ht, hd]
      | cons b t' => rw [hd] at h; exact absurd h (by simp)
  · rw [childName?, if_neg ht] at h
    exact absurd h (by simp)

theorem mem_list_authors {fs : FS} {name : String} :
    name ∈ list_authors fs ↔ CONTENT_AUTHORS_PATH ++ [name] ∈ fs.dirs := by
  unfold list_authors
  rw [List.mem_mergeSort]
  constructor
  · intro h
    obtain ⟨d, hd, hcn⟩ := List.mem_filterMap.1 h
    rw [childName?_eq_some hcn] at hd
    exact hd
  · intro h
    exact List.mem_filterMap.2 ⟨_, h, childName?_append _ _⟩

theorem list_authors_sorted (fs : FS) :
    (list_authors fs).Pairwise (fun a b : String => a ≤ b) := by
  unfold list_authors
  refine List.Pairwise.imp (fun h => of_decide_eq_true h) (List.sorted_mergeSort ?_ ?_ _)
  · intro a b c hab hbc
    exact decide_eq_true (le_trans (of_decide_eq_true hab) (of_decide_eq_true hbc))
  · intro a b
    rcases le_total a b with h | h <;> simp [h]

theorem list_authors_eq_nil {fs : FS}
    (h : ∀ name, CONTENT_AUTHORS_PATH ++ [name] ∉ fs.dirs) : list_authors fs = [] := by
  unfold list_authors
  have hfm : fs.dirs.filterMap (childName? CONTENT_AUTHORS_PATH) = [] := by
    rw [List.filterMap_eq_nil_iff]
    intro d hd
    cases hc : childName? CONTENT_AUTHORS_PATH d with
    | none => rfl
    | some n =>
      rw [childName?_eq_some hc] at hd
      exact absurd hd (h n)
  rw [hfm]
  simp

/-! ## Helper lemmas: the `try`/`except` boundary -/

theorem exceptCatch_error {body : Except String String} {marker e : String}
    (hb : body = .error e) (hm : "❌".data <+: marker.data) :
    exceptCatch body marker = marker ++ e
    ∧ "❌".data <+: (exceptCatch body marker).data
    ∧ e.data <:+: (exceptCatch body marker).data := by
  subst hb
  refine ⟨rfl, ?_, ?_⟩
  · show "❌".data <+: (marker ++ e).data
    rw [String.data_append]
    exact hm.trans ⟨e.data, rfl⟩
  · exact ⟨marker.data, [], by simp [exceptCatch]⟩

theorem exceptCatch_ok {body : Except String String} {marker s : String}
    (hb : body = .ok s) : exceptCatch body marker = s := by
  subst hb
  rfl

theorem data_middle_of_append (A B l : String) : l.data <:+: (A ++ l ++ B).data :=
  ⟨A.data, B.data, by simp⟩

/-! ## Claims -/

/-- C1: for each of `fork_repo`, `create_branch`, `commit_changes` and
`push_changes`, every failure raised inside the operation body is caught at
the operation boundary and converted into a status string that starts with
the failure marker `❌` and contains the underlying error's message text,
while a success value passes through unchanged — so no operation propagates
a raised fault to its caller (each returns a plain `String`). -/
theorem repo_operations_catch_external_failures (env : GitEnv) (branch msg e : String) :
    (fork_repo_body env = .error e →
        fork_repo env = "❌ Fork failed: " ++ e
        ∧ "❌".data <+: (fork_repo env).data
        ∧ e.data <:+: (fork_repo env).data)
    ∧ (∀ s, fork_repo_body env = .ok s → fork_repo env = s)
    ∧ (create_branch_body env branch = .error e →
        create_branch env branch = "❌ Branch failed: " ++ e
        ∧ "❌".data <+: (create_branch env branch).data
        ∧ e.data <:+: (create_branch env branch).data)
    ∧ (∀ s, create_branch_body env branch = .ok s → create_branch env branch = s)
    ∧ (commit_changes_body env msg = .error e →
        commit_changes env msg = "❌ Commit failed: " ++ e
        ∧ "❌".data <+: (commit_changes env msg).data
        ∧ e.data <:+: (commit_changes env msg).data)
    ∧ (∀ s, commit_changes_body env msg = .ok s → commit_changes env msg = s)
    ∧ (push_changes_body env branch = .error e →
        push_changes env branch = "❌ Push failed: " ++ e
        ∧ "❌".data <+: (push_changes env branch).data
        ∧ e.data <:+: (push_changes env branch).data)
    ∧ (∀ s, push_changes_body env branch = .ok s → push_changes env branch = s) := by
  refine ⟨fun h => exceptCatch_error h (by decide), fun s h => exceptCatch_ok h,
    fun h => exceptCatch_error h (by decide), fun s h => exceptCatch_ok h,
    fun h => exceptCatch_error h (by decide), fun s h => exceptCatch_ok h,
    fun h => exceptCatch_error h (by decide), fun s h => exceptCatch_ok h⟩

theorem repo_operations_catch_external_failures_witness :
    fork_repo envAllFail = "❌ Fork failed: boom"
    ∧ create_branch envAllFail "feature/blog" = "❌ Branch failed: boom"
    ∧ commit_changes envAllFail "Add authors/articles" = "❌ Commit failed: boom"
    ∧ push_changes envAllFail "feature/blog" = "❌ Push failed: boom" := by
  have h := repo_operations_catch_external_failures envAllFail "feature/blog"
    "Add authors/articles" "boom"
  exact ⟨(h.1 rfl).1, (h.2.2.1 rfl).1, (h.2.2.2.2.1 rfl).1, (h.2.2.2.2.2.2.1 rfl).1⟩

/-- C3: on an empty or all-whitespace name, `create_author` performs no
filesystem mutation (the state is returned unchanged) and reports the
invalid-input status string. -/
theorem create_author_rejects_blank_name_without_mutation (fs : FS) (name : String)
    (h : name = "" ∨ pyStrip name = "") :
    create_author fs name = (fs, INVALID_AUTHOR_MSG, none) := by
  rcases h with h | h <;> simp [create_author, h]

theorem create_author_rejects_blank_name_without_mutation_witness :
    create_author fs0 "   " = (fs0, INVALID_AUTHOR_MSG, none) :=
  create_author_rejects_blank_name_without_mutation fs0 "   " (Or.inr (by decide))

/-- C4: when the working tree has nothing to stage — modelled, following the
spec, by the underlying commit call raising while opening and staging
succeed — `commit_changes` returns the failure status surfacing the
underlying error, and not a success status (its result does not start with
the success marker `✅`). -/
theorem commit_changes_nothing_staged_returns_failure (env : GitEnv) (msg e : String)
    (hclone : clone_or_open_repo env = .ok ())
    (hadd : env.add_all = .ok ())
    (hcommit : env.index_commit msg = .error e) :
    commit_changes env msg = "❌ Commit failed: " ++ e
    ∧ ¬("✅".data <+: (commit_changes env msg).data)
    ∧ e.data <:+: (commit_changes env msg).data := by
  have hbody : commit_changes_body env msg = .error e := by
    unfold commit_changes_body
    rw [hclone]
    simp [hadd, hcommit]
    rfl
  have h := @exceptCatch_error _ "❌ Commit failed: " _ hbody (by decide)
  refine ⟨h.1, ?_, h.2.2⟩
  intro hpre
  rw [show commit_changes env msg = "❌ Commit failed: " ++ e from h.1] at hpre
  rw [show ("❌ Commit failed: " : String) = "❌" ++ " Commit failed: " from by decide,
    String.data_append, String.data_append] at hpre
  rw [show ("✅" : String).data = ['✅'] from rfl,
    show ("❌" : String).data = ['❌'] from rfl] at hpre
  have := (List.cons_prefix_cons.1 hpre).1
  exact absurd this (by decide)

theorem commit_changes_nothing_staged_returns_failure_witness :
    commit_changes envEmptyCommit "Add authors/articles"
      = "❌ Commit failed: nothing to commit" :=
  (commit_changes_nothing_staged_returns_failure envEmptyCommit "Add authors/articles"
    "nothing to commit" rfl rfl rfl).1

/-- C6: for every non-empty name `n`, `format_author_name n` contains no
uppercase letter and no space, and `format_author_name` is idempotent. -/
theorem format_author_name_lowercase_nospace_idempotent (n : String) (hn : n ≠ "") :
    (∀ c ∈ (format_author_name n).data, c.isUpper = false ∧ c ≠ ' ')
    ∧ format_author_name (format_author_name n) = format_author_name n :=
  ⟨format_author_name_chars n, format_author_name_idem n⟩

theorem format_author_name_lowercase_nospace_idempotent_witness :
    ('j'.isUpper = false ∧ 'j' ≠ ' ')
    ∧ format_author_name (format_author_name "Jane Doe") = format_author_name "Jane Doe" :=
  ⟨(format_author_name_lowercase_nospace_idempotent "Jane Doe" (by decide)).1 'j' (by decide),
   (format_author_name_lowercase_nospace_idempotent "Jane Doe" (by decide)).2⟩

/-- C9 counterexample: `format_author_name` itself does not fail on an
all-whitespace input — it returns the ordinary value `""`, which is not the
invalid-input status string. -/
theorem format_author_name_blank_returns_empty_not_failure :
    format_author_name "   " = "" ∧ "" ≠ INVALID_AUTHOR_MSG := by
  exact ⟨by decide, by decide⟩

/-- C9 amended: `format_author_name` trims, hyphenates and lowercases
deterministically and totally; on an all-whitespace name it simply returns
`""`, and the invalid-input detection and reporting happen in its caller
`create_author`, before any mutation. -/
theorem blank_name_rejected_by_create_author_not_formatter (fs : FS) (n : String)
    (h : pyStrip n = "") :
    format_author_name n = ""
    ∧ create_author fs n = (fs, INVALID_AUTHOR_MSG, none) := by
  constructor
  · have hl : pyStripList n.data = [] := congrArg String.data h
    have hf : format_author_name n
        = String.mk (((pyStripList n.data).map replSpace).map Char.toLower) := rfl
    rw [hf, hl]
    rfl
  · simp [create_author, h]

theorem blank_name_rejected_by_create_author_not_formatter_witness :
    format_author_name "   " = ""
    ∧ create_author fs0 "   " = (fs0, INVALID_AUTHOR_MSG, none) :=
  blank_name_rejected_by_create_author_not_formatter fs0 "   " (by decide)

/-- C2: for every non-empty title and author, `create_article` creates the
directory `content/blog/<year>/<month>/<slugify title>` and writes in it an
`index.md` whose front matter carries the author verbatim and the title
verbatim (quoted). -/
theorem create_article_writes_directory_and_front_matter
    (fs : FS) (now : Now) (t a : String) (ht : t ≠ "") (ha : a ≠ "") :
    pathJoin (pathJoin (pathJoin CONTENT_BLOG_PATH now.y) now.m) (slugify t)
        ∈ (create_article fs now t a).1.dirs
    ∧ (create_article fs now t a).1.read
        (pathJoin (pathJoin (pathJoin CONTENT_BLOG_PATH now.y) now.m) (slugify t)
          |> (pathJoin · "index.md"))
        = some (articleContent t a now.dateOnly) := by
  have hne : pathJoin (pathJoin (pathJoin CONTENT_BLOG_PATH now.y) now.m) (slugify t) ≠ [] :=
    pathJoin_ne_nil _ (pathJoin_ne_nil _ (pathJoin_ne_nil _ (by decide)))
  constructor
  · simp only [create_article, ht, ha]
    simp
    exact mkdirP_self_mem fs hne
  · simp only [create_article, ht, ha]
    simp
    exact read_writeFile_self _ _ _

theorem create_article_writes_directory_and_front_matter_witness :
    pathJoin (pathJoin (pathJoin CONTENT_BLOG_PATH now0.y) now0.m) (slugify "Hello, World!")
        ∈ (create_article fs0 now0 "Hello, World!" "amy").1.dirs
    ∧ (create_article fs0 now0 "Hello, World!" "amy").1.read
        (pathJoin (pathJoin (pathJoin CONTENT_BLOG_PATH now0.y) now0.m)
            (slugify "Hello, World!") |> (pathJoin · "index.md"))
        = some (articleContent "Hello, World!" "amy" now0.dateOnly) :=
  create_article_writes_directory_and_front_matter fs0 now0 "Hello, World!" "amy"
    (by decide) (by decide)

/-- C5 counterexample: the success *status string* of `create_article` (its
first returned value) contains neither the editor deep-link nor the
live-preview link — those are returned as separate HTML outputs. -/
theorem create_article_status_string_lacks_links :
    ¬((vscode_link now0.y now0.m (slugify "Hello, World!")).data
        <:+: ((create_article fs0 now0 "Hello, World!" "amy").2.1).data)
    ∧ ¬((preview_link now0.y now0.m (slugify "Hello, World!")).data
        <:+: ((create_article fs0 now0 "Hello, World!" "amy").2.1).data) := by
  constructor <;> decide

/-- C5 amended: on success `create_article` returns the short status string
`✅ Article '<title>' created by <author>.`, and the derived editor
deep-link and live-preview link are contained in the two separately returned
HTML fragments, built from the year/month/slug path segments. -/
theorem create_article_links_in_separate_html_outputs
    (fs : FS) (now : Now) (t a : String) (ht : t ≠ "") (ha : a ≠ "") :
    (create_article fs now t a).2.1
        = "✅ Article '" ++ t ++ "' created by " ++ a ++ "."
    ∧ (create_article fs now t a).2.2.2.1
        = some (vscodeMsg (vscode_link now.y now.m (slugify t)))
    ∧ (create_article fs now t a).2.2.2.2
        = some (previewMsg (preview_link now.y now.m (slugify t)))
    ∧ (vscode_link now.y now.m (slugify t)).data
        <:+: (vscodeMsg (vscode_link now.y now.m (slugify t))).data
    ∧ (preview_link now.y now.m (slugify t)).data
        <:+: (previewMsg (preview_link now.y now.m (slugify t))).data := by
  refine ⟨?_, ?_, ?_, data_middle_of_append _ _ _, data_middle_of_append _ _ _⟩ <;>
    simp [create_article, ht, ha]

theorem create_article_links_in_separate_html_outputs_witness :
    (create_article fs0 now0 "Hello, World!" "amy").2.1
        = "✅ Article '" ++ "Hello, World!" ++ "' created by " ++ "amy" ++ "."
    ∧ (create_article fs0 now0 "Hello, World!" "amy").2.2.2.1
        = some (vscodeMsg (vscode_link now0.y now0.m (slugify "Hello, World!")))
    ∧ (create_article fs0 now0 "Hello, World!" "amy").2.2.2.2
        = some (previewMsg (preview_link now0.y now0.m (slugify "Hello, World!")))
    ∧ (vscode_link now0.y now0.m (slugify "Hello, World!")).data
        <:+: (vscodeMsg (vscode_link now0.y now0.m (slugify "Hello, World!"))).data
    ∧ (preview_link now0.y now0.m (slugify "Hello, World!")).data
        <:+: (previewMsg (preview_link now0.y now0.m (slugify "Hello, World!"))).data :=
  create_article_links_in_separate_html_outputs fs0 now0 "Hello, World!" "amy"
    (by decide) (by decide)

/-- C7: after `create_author` succeeds on a valid name, the normalized name
is in `list_authors`, the author directory holds a front-matter file whose
`title` equals the normalized name, and the JSON sidecar for the normalized
name holds `name` equal to it with empty `bio` and `image`. -/
theorem create_author_success_registers_author (fs : FS) (n : String)
    (h1 : n ≠ "") (h2 : pyStrip n ≠ "") :
    format_author_name n ∈ list_authors (create_author fs n).1
    ∧ (create_author fs n).1.read
        (CONTENT_AUTHORS_PATH ++ [format_author_name n, "_index.md"])
        = some (authorIndexContent (format_author_name n))
    ∧ (create_author fs n).1.read
        (DATA_AUTHORS_PATH ++ [format_author_name n ++ ".json"])
        = some (authorJson (format_author_name n)) := by
  have hnf : format_author_name n ≠ "" := format_author_name_ne_empty h2
  have hjson : format_author_name n ++ ".json" ≠ "" := by
    intro he
    have := congrArg String.data he
    simp at this
  have hpj : pathJoin CONTENT_AUTHORS_PATH (format_author_name n)
      = CONTENT_AUTHORS_PATH ++ [format_author_name n] := pathJoin_eq_append hnf
  have hidx : pathJoin (pathJoin CONTENT_AUTHORS_PATH (format_author_name n)) "_index.md"
      = CONTENT_AUTHORS_PATH ++ [format_author_name n, "_index.md"] := by
    rw [hpj, pathJoin_eq_append (by decide), List.append_assoc]
    rfl
  have hjp : pathJoin DATA_AUTHORS_PATH (format_author_name n ++ ".json")
      = DATA_AUTHORS_PATH ++ [format_author_name n ++ ".json"] := pathJoin_eq_append hjson
  have hne_paths : DATA_AUTHORS_PATH ++ [format_author_name n ++ ".json"]
      ≠ CONTENT_AUTHORS_PATH ++ [format_author_name n, "_index.md"] := by
    intro he
    simp [DATA_AUTHORS_PATH, CONTENT_AUTHORS_PATH, HUGO_PROJECT_PATH] at he
  refine ⟨?_, ?_, ?_⟩
  · simp only [create_author, h1, h2]
    simp
    refine mem_list_authors.2 ?_
    show CONTENT_AUTHORS_PATH ++ [format_author_name n]
      ∈ (fs.mkdirP (pathJoin CONTENT_AUTHORS_PATH (format_author_name n))).dirs
    rw [← hpj]
    exact @mkdirP_self_mem fs _ (pathJoin_ne_nil _ (by decide))
  · simp only [create_author, h1, h2]
    simp
    rw [hjp, read_writeFile_ne (fun he => hne_paths he.symm) _ _, ← hidx]
    exact read_writeFile_self _ _ _
  · simp only [create_author, h1, h2]
    simp
    rw [hjp]
    exact read_writeFile_self _ _ _

theorem create_author_success_registers_author_witness :
    format_author_name "Jane Doe" ∈ list_authors (create_author fs0 "Jane Doe").1
    ∧ (create_author fs0 "Jane Doe").1.read
        (CONTENT_AUTHORS_PATH ++ [format_author_name "Jane Doe", "_index.md"])
        = some (authorIndexContent (format_author_name "Jane Doe"))
    ∧ (create_author fs0 "Jane Doe").1.read
        (DATA_AUTHORS_PATH ++ [format_author_name "Jane Doe" ++ ".json"])
        = some (authorJson (format_author_name "Jane Doe")) :=
  create_author_success_registers_author fs0 "Jane Doe" (by decide) (by decide)

/-- C8: `list_authors` is ascending (lexicographically sorted), a name is
listed exactly when the authors-content root has that subdirectory, and the
result is empty when the root has no subdirectories. -/
theorem list_authors_exactly_sorted_subdirectories (fs : FS) :
    (list_authors fs).Pairwise (fun a b : String => a ≤ b)
    ∧ (∀ name, name ∈ list_authors fs ↔ CONTENT_AUTHORS_PATH ++ [name] ∈ fs.dirs)
    ∧ ((∀ name, CONTENT_AUTHORS_PATH ++ [name] ∉ fs.dirs) → list_authors fs = []) :=
  ⟨list_authors_sorted fs, fun _ => mem_list_authors, list_authors_eq_nil⟩

theorem list_authors_exactly_sorted_subdirectories_witness :
    (list_authors fs0).Pairwise (fun a b : String => a ≤ b)
    ∧ ("amy" ∈ list_authors fs0 ↔ CONTENT_AUTHORS_PATH ++ ["amy"] ∈ fs0.dirs)
    ∧ list_authors fs0 = [] :=
  ⟨(list_authors_exactly_sorted_subdirectories fs0).1,
   (list_authors_exactly_sorted_subdirectories fs0).2.1 "amy",
   (list_authors_exactly_sorted_subdirectories fs0).2.2
     (fun _ h => absurd h (List.not_mem_nil _))⟩

/-- C10: for a non-empty title whose slug is empty, `create_article` still
reports success and writes `index.md` directly in the month directory (the
article directory collapses onto it), so two such articles in the same
month overwrite the same file. -/
theorem empty_slug_article_lands_in_month_directory
    (fs : FS) (now : Now) (t1 a1 t2 a2 : String)
    (ht1 : t1 ≠ "") (ha1 : a1 ≠ "") (hs1 : slugify t1 = "")
    (ht2 : t2 ≠ "") (ha2 : a2 ≠ "") (hs2 : slugify t2 = "") :
    (create_article fs now t1 a1).2.1
        = "✅ Article '" ++ t1 ++ "' created by " ++ a1 ++ "."
    ∧ pathJoin (pathJoin (pathJoin CONTENT_BLOG_PATH now.y) now.m) (slugify t1)
        = pathJoin (pathJoin CONTENT_BLOG_PATH now.y) now.m
    ∧ (create_article fs now t1 a1).1.read
        (pathJoin (pathJoin (pathJoin CONTENT_BLOG_PATH now.y) now.m) "index.md")
        = some (articleContent t1 a1 now.dateOnly)
    ∧ (create_article (create_article fs now t1 a1).1 now t2 a2).1.read
        (pathJoin (pathJoin (pathJoin CONTENT_BLOG_PATH now.y) now.m) "index.md")
        = some (articleContent t2 a2 now.dateOnly) := by
  have hcollapse : pathJoin (pathJoin (pathJoin CONTENT_BLOG_PATH now.y) now.m) (slugify t1)
      = pathJoin (pathJoin CONTENT_BLOG_PATH now.y) now.m := by
    rw [hs1]
    rfl
  refine ⟨?_, hcollapse, ?_, ?_⟩
  · simp [create_article, ht1, ha1]
  · simp [create_article, ht1, ha1]
    rw [hs1]
    exact read_writeFile_self _ _ _
  · simp [create_article, ht1, ha1, ht2, ha2]
    rw [hs1, hs2]
    exact read_writeFile_self _ _ _

theorem empty_slug_article_lands_in_month_directory_witness :
    (create_article fs0 now0 "!!!" "amy").2.1
        = "✅ Article '" ++ "!!!" ++ "' created by " ++ "amy" ++ "."
    ∧ pathJoin (pathJoin (pathJoin CONTENT_BLOG_PATH now0.y) now0.m) (slugify "!!!")
        = pathJoin (pathJoin CONTENT_BLOG_PATH now0.y) now0.m
    ∧ (create_article fs0 now0 "!!!" "amy").1.read
        (pathJoin (pathJoin (pathJoin CONTENT_BLOG_PATH now0.y) now0.m) "index.md")
        = some (articleContent "!!!" "amy" now0.dateOnly)
    ∧ (create_article (create_article fs0 now0 "!!!" "amy").1 now0 "???" "bob").1.read
        (pathJoin (pathJoin (pathJoin CONTENT_BLOG_PATH now0.y) now0.m) "index.md")
        = some (articleContent "???" "bob" now0.dateOnly) :=
  empty_slug_article_lands_in_month_directory fs0 now0 "!!!" "amy" "???" "bob"
    (by decide) (by decide) (by decide) (by decide) (by decide) (by decide)

end HugoBlog
